import Mathlib

/-!
  # Verification of the notesApp session/credential core

  Shallow embedding of the session-management slice of the notesApp Go
  repository: the `AuthS` service (`internal/service`, sign-up / sign-in /
  logout / refresh / access-token parsing), the token repository `TokenR`
  (`internal/repository`), the domain models and sentinel errors
  (`internal/models/domain`), and the bcrypt-backed `Hasher` (`pkg/hasher`).

  Modelling conventions:
  * Go `time.Time` values are modelled as `Int` instants; `t.Before(u)` is
    `t < u` (strict), exactly as in the source.
  * Go errors are modelled by the inductive `GoError`; `domain.MakeError`
    (which wraps a domain sentinel and an inner error with `%w`) becomes
    `GoError.wrapped`, and `errors.Is` becomes `errorIs`.
  * The SQL-backed stores become explicit list states: the `tokens` table is
    a `List Token`, the `users` table a `List User`.  `QueryRow ... Scan`
    with `sql.ErrNoRows` becomes `List.find?`; `DELETE` becomes
    `List.filter` plus the `RowsAffected` check.  Transient driver failures
    are modelled only where a claim needs them (the `createFail` oracle for
    `CreateToken`, mirroring the gomock fault injections in the repo tests).
  * Randomness (`uuid.New`) is passed in as an explicit fresh-value
    parameter, as is the current time.
  * The external JWT library (`lestrrat-go/jwx/v2`) is modelled at the level
    of an already-decoded signed token: `jwt.Sign` with `jwa.HS256` attaches
    a deterministic tag computed from the secret and the payload, and
    `jwt.Parse` with a key checks the pinned algorithm, recomputes the tag,
    and (as jwx v2 does by default) validates the `exp` claim against the
    current time.  Cryptographic forgery-resistance is not needed by any
    claim, only determinism of the tag, so a concrete executable tag stands
    in for HMAC-SHA256.
  * `google/uuid` is modelled concretely: a UUID is 16 bytes, `String`
    renders the canonical lowercase 36-character form and `Parse` accepts
    that canonical form (the library additionally accepts urn-prefixed,
    braced and 32-character compact forms, which nothing in the repository
    produces and no claim exercises; all other inputs fail in both).
  * `x/crypto/bcrypt` is modelled with an explicit key-derivation parameter
    `kdf`: `GenerateFromPassword` encodes header, the supplied fresh salt
    and `kdf password salt`; `CompareHashAndPassword` rejects hashes shorter
    than 59 bytes (the library's `ErrHashTooShort` path), decodes the salt,
    recomputes the derived key and compares.
-/

namespace NotesApp

/-! ## UUIDs (`github.com/google/uuid`) -/

/-- Lowercase hexadecimal digit character, as produced by `uuid.encodeHex`. -/
def hexDigitChar (n : Fin 16) : Char :=
  Char.ofNat (if n.val < 10 then 48 + n.val else 87 + n.val)

/-- High nibble of a byte, rendered as a hex character. -/
def hexHi (b : Fin 256) : Char := hexDigitChar ⟨b.val / 16, by omega⟩

/-- Low nibble of a byte, rendered as a hex character. -/
def hexLo (b : Fin 256) : Char := hexDigitChar ⟨b.val % 16, by omega⟩

/-- Hex digit reader mirroring the `xvalues` table of `google/uuid`:
digits, lowercase and uppercase letters are accepted. -/
def parseHexDigit (c : Char) : Option (Fin 16) :=
  let n := c.toNat
  if h1 : 48 ≤ n ∧ n ≤ 57 then some ⟨n - 48, by omega⟩
  else if h2 : 97 ≤ n ∧ n ≤ 102 then some ⟨n - 87, by omega⟩
  else if h3 : 65 ≤ n ∧ n ≤ 70 then some ⟨n - 55, by omega⟩
  else none

/-- Reads one byte from two hex characters. -/
def parseHexByte (c1 c2 : Char) : Option (Fin 256) := do
  let h ← parseHexDigit c1
  let l ← parseHexDigit c2
  pure ⟨h.val * 16 + l.val, by omega⟩

/-- Model of `uuid.UUID`: sixteen bytes. -/
structure UUID where
  b0 : Fin 256
  b1 : Fin 256
  b2 : Fin 256
  b3 : Fin 256
  b4 : Fin 256
  b5 : Fin 256
  b6 : Fin 256
  b7 : Fin 256
  b8 : Fin 256
  b9 : Fin 256
  b10 : Fin 256
  b11 : Fin 256
  b12 : Fin 256
  b13 : Fin 256
  b14 : Fin 256
  b15 : Fin 256
deriving DecidableEq, Repr

/-- Model of `uuid.Nil`: the all-zero UUID. -/
def uuidNil : UUID := ⟨0, 0, 0, 0, 0, 0, 0, 0, 0, 0, 0, 0, 0, 0, 0, 0⟩

/-- Character list of the canonical `8-4-4-4-12` rendering of a UUID. -/
def uuidChars (u : UUID) : List Char :=
  hexHi u.b0 :: hexLo u.b0 :: hexHi u.b1 :: hexLo u.b1 ::
  hexHi u.b2 :: hexLo u.b2 :: hexHi u.b3 :: hexLo u.b3 :: '-' ::
  hexHi u.b4 :: hexLo u.b4 :: hexHi u.b5 :: hexLo u.b5 :: '-' ::
  hexHi u.b6 :: hexLo u.b6 :: hexHi u.b7 :: hexLo u.b7 :: '-' ::
  hexHi u.b8 :: hexLo u.b8 :: hexHi u.b9 :: hexLo u.b9 :: '-' ::
  hexHi u.b10 :: hexLo u.b10 :: hexHi u.b11 :: hexLo u.b11 ::
  hexHi u.b12 :: hexLo u.b12 :: hexHi u.b13 :: hexLo u.b13 ::
  hexHi u.b14 :: hexLo u.b14 :: hexHi u.b15 :: hexLo u.b15 :: []

/-- Model of `uuid.UUID.String`. -/
def uuidString (u : UUID) : String := String.mk (uuidChars u)

/-- Reads the canonical 36-character form accepted by `uuid.Parse`. -/
def uuidParseChars : List Char → Option UUID
  | a0 :: a1 :: a2 :: a3 :: a4 :: a5 :: a6 :: a7 :: d1 ::
    b0 :: b1 :: b2 :: b3 :: d2 ::
    c0 :: c1 :: c2 :: c3 :: d3 ::
    e0 :: e1 :: e2 :: e3 :: d4 ::
    f0 :: f1 :: f2 :: f3 :: f4 :: f5 :: f6 :: f7 :: f8 :: f9 :: f10 :: f11 :: [] =>
    if d1 = '-' ∧ d2 = '-' ∧ d3 = '-' ∧ d4 = '-' then do
      let v0 ← parseHexByte a0 a1
      let v1 ← parseHexByte a2 a3
      let v2 ← parseHexByte a4 a5
      let v3 ← parseHexByte a6 a7
      let v4 ← parseHexByte b0 b1
      let v5 ← parseHexByte b2 b3
      let v6 ← parseHexByte c0 c1
      let v7 ← parseHexByte c2 c3
      let v8 ← parseHexByte e0 e1
      let v9 ← parseHexByte e2 e3
      let v10 ← parseHexByte f0 f1
      let v11 ← parseHexByte f2 f3
      let v12 ← parseHexByte f4 f5
      let v13 ← parseHexByte f6 f7
      let v14 ← parseHexByte f8 f9
      let v15 ← parseHexByte f10 f11
      pure ⟨v0, v1, v2, v3, v4, v5, v6, v7, v8, v9, v10, v11, v12, v13, v14, v15⟩
    else none
  | _ => none

/-- Model of `uuid.Parse`. -/
def uuidParse (s : String) : Option UUID := uuidParseChars s.data

/-! ## Domain errors (`internal/models/domain/errors.go`) -/

/-- Sentinel error values declared at package level in `domain`. -/
inductive DomainErr
  | errReceiving
  | errFailedToCreate
  | errFailedToUpdate
  | errFailedToDelete
  | errNotFound
  | errNoFieldsToUpdate
  | errInvalidUUID
  | errIncorrectPassword
deriving DecidableEq, Repr

/-- Go error values as the session core produces them: a bare domain
sentinel, a `domain.MakeError` wrap (sentinel + object + inner error, both
wrapped with `%w`), a `fmt.Errorf` message without wrapping, or an error
from an external collaborator (database driver, crypto library). -/
inductive GoError
  | domainE (d : DomainErr)
  | wrapped (dErr : DomainErr) (obj : String) (inner : GoError)
  | fmtError (msg : String)
  | external (msg : String)
deriving DecidableEq, Repr

/-- Model of `errors.Is(e, target)` for a domain sentinel target: unwraps
through `MakeError`'s two `%w` verbs. -/
def errorIs : GoError → DomainErr → Bool
  | .domainE d, t => d == t
  | .wrapped d _ inner, t => d == t || errorIs inner t
  | .fmtError _, _ => false
  | .external _, _ => false

/-- Model of `domain.MakeError(dErr, err, object)`. -/
def makeError (dErr : DomainErr) (err : GoError) (obj : String) : GoError :=
  .wrapped dErr obj err

/-! ## Access tokens (`lestrrat-go/jwx/v2` as used by `AuthS`) -/

/-- Claim values as seen through `jwt.Token.Get` (an `interface{}` in Go);
the code only ever distinguishes strings from everything else. -/
inductive ClaimVal
  | str (s : String)
  | int (n : Int)
deriving DecidableEq, Repr

/-- Payload of a JWT as built by `generateAccessToken`: subject,
expiration and issued-at claims (each optional in a crafted token). -/
structure JWTPayload where
  sub : Option ClaimVal
  exp : Option Int
  iat : Option Int
deriving DecidableEq, Repr

/-- Signature algorithm tag carried by a compact JWS. -/
inductive JWAAlg
  | hs256
  | other
deriving DecidableEq, Repr

/-- Deterministic rendering of a claim value used by the tag model. -/
def serializeClaim : Option ClaimVal → String
  | none => "_"
  | some (.str s) => "s:" ++ s
  | some (.int n) => "i:" ++ toString n

/-- Deterministic rendering of a payload used by the tag model. -/
def serializePayload (p : JWTPayload) : String :=
  serializeClaim p.sub ++ "|" ++ serializeClaim (p.exp.map .int) ++ "|"
    ++ serializeClaim (p.iat.map .int)

/-- Model of the HMAC-SHA256 tag: a deterministic function of the secret
and the payload.  No claim relies on unforgeability, only on determinism,
so a concrete executable tag suffices. -/
def macHS256 (secret : String) (p : JWTPayload) : String :=
  "HS256|" ++ secret ++ "|" ++ serializePayload p

/-- Compact signed token as produced by `jwt.Sign` and consumed by
`jwt.Parse`: payload, asserted algorithm, signature. -/
structure SignedJWT where
  payload : JWTPayload
  alg : JWAAlg
  sig : String
deriving DecidableEq, Repr

/-- Model of `jwt.Sign(tkn, jwt.WithKey(jwa.HS256, secret))`. -/
def jwtSign (secret : String) (p : JWTPayload) : SignedJWT :=
  ⟨p, .hs256, macHS256 secret p⟩

/-- Model of `jwt.Parse(token, jwt.WithKey(jwa.HS256, secret))`: checks the
pinned algorithm, verifies the signature, then (jwx v2 validates by
default) rejects the token when the current time is at or after `exp`. -/
def jwtParseVerify (now : Int) (secret : String) (t : SignedJWT) :
    Except GoError JWTPayload :=
  if t.alg ≠ .hs256 then .error (.external "jws: invalid signature algorithm")
  else if t.sig ≠ macHS256 secret t.payload then
    .error (.external "jws: failed to verify message")
  else
    match t.payload.exp with
    | some e => if e ≤ now then .error (.external "exp not satisfied") else .ok t.payload
    | none => .ok t.payload

/-- Model of `config.AuthCfg`: signing secret and the two TTLs. -/
structure AuthCfg where
  jwtSecret : String
  accessTokenTTL : Int
  refreshTokenTTL : Int
deriving DecidableEq, Repr

/-- Model of `AuthS.generateAccessToken`: sets `sub` to the canonical
string of the user ID, `exp` to `now + AccessTokenTTL`, `iat` to `now`,
and signs with HS256.  The Go error branches (failures of `tkn.Set`) are
unreachable for these fixed keys and are not modelled. -/
def generateAccessToken (cfg : AuthCfg) (now : Int) (userID : UUID) : SignedJWT :=
  jwtSign cfg.jwtSecret
    { sub := some (.str (uuidString userID))
      exp := some (now + cfg.accessTokenTTL)
      iat := some now }

/-- Model of `AuthS.ParseToken`: any parse/verify failure collapses to
`fmt.Errorf("invalid token")`, a missing or non-string `sub` likewise, and
a `sub` string that `uuid.Parse` rejects yields `domain.ErrInvalidUUID`. -/
def ParseToken (cfg : AuthCfg) (now : Int) (tok : SignedJWT) : Except GoError UUID :=
  match jwtParseVerify now cfg.jwtSecret tok with
  | .error _ => .error (.fmtError "invalid token")
  | .ok payload =>
    match payload.sub with
    | none => .error (.fmtError "invalid token")
    | some (.int _) => .error (.fmtError "invalid token")
    | some (.str s) =>
      match uuidParse s with
      | none => .error (.domainE .errInvalidUUID)
      | some userID => .ok userID

/-! ## Refresh tokens: domain model and repository (`TokenR`) -/

/-- Model of `domain.Token`: a refresh-token record. -/
structure Token where
  userID : UUID
  tokenID : String
  expiresAt : Int
deriving DecidableEq, Repr

/-- State of the `tokens` table. -/
def TokenStore := List Token

/-- Model of `TokenR.Token` (SELECT by `token_id`): the first matching row,
or `MakeError(ErrReceiving, ErrNotFound, "token")` on `sql.ErrNoRows`. -/
def tokenGet (st : List Token) (id : String) : Except GoError Token :=
  match st.find? (fun t => t.tokenID == id) with
  | some t => .ok t
  | none => .error (makeError .errReceiving (.domainE .errNotFound) "token")

/-- Model of `TokenR.DeleteToken` (DELETE by `token_id`): removes every
matching row; when `RowsAffected` is zero it returns
`MakeError(ErrFailedToDelete, ErrNotFound, "token")`. -/
def tokenDelete (st : List Token) (id : String) : List Token × Except GoError Unit :=
  let remaining := st.filter (fun t => !(t.tokenID == id))
  if st.any (fun t => t.tokenID == id) then (remaining, .ok ())
  else (remaining, .error (makeError .errFailedToDelete (.domainE .errNotFound) "token"))

/-- Model of `TokenR.CreateToken` (INSERT): appends the record, or fails
with `MakeError(ErrFailedToCreate, err, "token")` when the storage fault
oracle `fail` is set. -/
def tokenCreate (fail : Bool) (st : List Token) (tok : Token) :
    List Token × Except GoError Unit :=
  if fail then (st, .error (makeError .errFailedToCreate (.external "db") "token"))
  else (st ++ [tok], .ok ())

/-! ## The session service `AuthS` -/

/-- Model of `dto.TokenOutput`. -/
structure TokenOutput where
  accessToken : SignedJWT
  refreshToken : String
deriving DecidableEq, Repr

/-- Model of `AuthS.generateRefreshToken`: fresh random token ID (passed in
as `freshID`), expiry `now + RefreshTokenTTL`. -/
def generateRefreshToken (cfg : AuthCfg) (now : Int) (freshID : String) (userID : UUID) :
    Token :=
  { userID := userID, tokenID := freshID, expiresAt := now + cfg.refreshTokenTTL }

/-- Model of `AuthS.generateAndSaveTokens`: build the access token and the
refresh record, persist the refresh record, return the pair. -/
def generateAndSaveTokens (cfg : AuthCfg) (now : Int) (freshID : String)
    (createFail : Bool) (st : List Token) (userID : UUID) :
    List Token × Except GoError TokenOutput :=
  let accessToken := generateAccessToken cfg now userID
  let refreshTok := generateRefreshToken cfg now freshID userID
  match tokenCreate createFail st refreshTok with
  | (st2, .error e) => (st2, .error e)
  | (st2, .ok _) => (st2, .ok ⟨accessToken, refreshTok.tokenID⟩)

/-- Model of `AuthS.RefreshToken`: fetch the record, delete it, check
expiry with the strict `ExpiresAt.Before(now)`, then issue and persist the
replacement pair. -/
def RefreshToken (cfg : AuthCfg) (now : Int) (freshID : String) (createFail : Bool)
    (st : List Token) (tokenID : String) : List Token × Except GoError TokenOutput :=
  match tokenGet st tokenID with
  | .error e => (st, .error e)
  | .ok tokenDB =>
    match tokenDelete st tokenID with
    | (st2, .error e) => (st2, .error e)
    | (st2, .ok _) =>
      if tokenDB.expiresAt < now then (st2, .error (.fmtError "token expired"))
      else generateAndSaveTokens cfg now freshID createFail st2 tokenDB.userID

/-- Model of `AuthS.Logout`: delete the refresh record, propagating the
repository error (absent record included). -/
def Logout (st : List Token) (tokenID : String) : List Token × Except GoError Unit :=
  tokenDelete st tokenID

/-! ## Password hashing (`pkg/hasher` over `x/crypto/bcrypt`) -/

/-- Header of a bcrypt hash at `bcrypt.DefaultCost`. -/
def bcryptHeader : List Char := ['$', '2', 'a', '$', '1', '0', '$']

/-- Model of the encoded bcrypt hash: header, 22-character salt,
31-character derived key. -/
def bcryptEncode (salt digest : List Char) : List Char :=
  bcryptHeader ++ salt ++ digest

/-- Minimum length accepted by `bcrypt.newFromHash` (`ErrHashTooShort`). -/
def minHashSize : Nat := 59

/-- Model of the decoding half of `bcrypt.CompareHashAndPassword`: length
check, header check, then salt/derived-key split. -/
def bcryptDecode (h : List Char) : Option (List Char × List Char) :=
  if h.length < minHashSize then none
  else if h.take 7 ≠ bcryptHeader then none
  else some ((h.drop 7).take 22, (h.drop 7).drop 22)

/-- Model of `Hasher.GenerateHash`: rejects the empty password, otherwise
encodes a fresh salt (passed in) and the derived key `kdf password salt`. -/
def GenerateHash (kdf : List Char → List Char → List Char) (salt : List Char)
    (password : String) : Except GoError String :=
  if password = "" then .error (.fmtError "empty password")
  else .ok (String.mk (bcryptEncode salt (kdf password.data salt)))

/-- Model of `Hasher.ComparePassword` = `bcrypt.CompareHashAndPassword`:
decode the stored hash, recompute the derived key from the candidate
password and the decoded salt, compare. -/
def ComparePassword (kdf : List Char → List Char → List Char)
    (hash password : String) : Except GoError Unit :=
  match bcryptDecode hash.data with
  | none => .error (.external "crypto-bcrypt: hashedSecret too short")
  | some (salt, digest) =>
    if kdf password.data salt = digest then .ok ()
    else .error (.external "crypto-bcrypt: hashedPassword is not the hash of the given password")

/-! ## Users: domain model, repository slice and `AuthS` orchestration -/

/-- Model of `domain.User` (the fields the session core touches). -/
structure User where
  id : UUID
  username : String
  email : String
  password : String
  imageURL : String
deriving DecidableEq, Repr

/-- Model of `domain.User.Validate`: the four emptiness checks in source
order. -/
def userValidate (u : User) : Except GoError Unit :=
  if u.id = uuidNil then .error (.fmtError "invalid user ID")
  else if u.username = "" then .error (.fmtError "empty username")
  else if u.email = "" then .error (.fmtError "empty email")
  else if u.password = "" then .error (.fmtError "empty password")
  else .ok ()

/-- Model of `UserR.UserCredentials` (SELECT id, password by email):
`MakeError(ErrReceiving, ErrNotFound, "user")` on `sql.ErrNoRows`. -/
def userCredentials (us : List User) (email : String) :
    Except GoError (UUID × String) :=
  match us.find? (fun u => u.email == email) with
  | some u => .ok (u.id, u.password)
  | none => .error (makeError .errReceiving (.domainE .errNotFound) "user")

/-- Model of `AuthS.checkUser`: look up credentials by email (propagating
the repository error), then compare the password; any mismatch becomes the
sentinel `domain.ErrIncorrectPassword`. -/
def checkUser (kdf : List Char → List Char → List Char) (us : List User)
    (email password : String) : Except GoError UUID :=
  match userCredentials us email with
  | .error e => .error e
  | .ok (userID, hashedPass) =>
    match ComparePassword kdf hashedPass password with
    | .error _ => .error (.domainE .errIncorrectPassword)
    | .ok _ => .ok userID

/-- Model of `dto.UserSignIn`. -/
structure UserSignIn where
  email : String
  password : String
deriving DecidableEq, Repr

/-- Model of `AuthS.SignIn`: authenticate, then issue and persist the token
pair. -/
def SignIn (kdf : List Char → List Char → List Char) (cfg : AuthCfg) (now : Int)
    (freshID : String) (createFail : Bool) (us : List User) (st : List Token)
    (data : UserSignIn) : List Token × Except GoError TokenOutput :=
  match checkUser kdf us data.email data.password with
  | .error e => (st, .error e)
  | .ok userID => generateAndSaveTokens cfg now freshID createFail st userID

/-- Model of `dto.UserCreate`. -/
structure UserCreate where
  username : String
  email : String
  password : String
  imageURL : String
deriving DecidableEq, Repr

/-- Result of a `SignUp` run: the user table afterwards, whether the
repository's `CreateUser` was invoked, and the returned value. -/
structure SignUpResult where
  store : List User
  createUserCalled : Bool
  result : Except GoError UUID
deriving Repr

/-- Model of `AuthS.SignUp`: hash the password, build the user with a fresh
random ID, validate, and only then call the repository's `CreateUser`
(whose storage fault oracle is `createFail`). -/
def SignUp (kdf : List Char → List Char → List Char) (salt : List Char)
    (freshID : UUID) (createFail : Bool) (us : List User) (user : UserCreate) :
    SignUpResult :=
  match GenerateHash kdf salt user.password with
  | .error e => ⟨us, false, .error e⟩
  | .ok hashPass =>
    let input : User :=
      { id := freshID, username := user.username, email := user.email
        password := hashPass, imageURL := user.imageURL }
    match userValidate input with
    | .error e => ⟨us, false, .error e⟩
    | .ok _ =>
      if createFail then
        ⟨us, true, .error (makeError .errFailedToCreate (.external "db") "user")⟩
      else ⟨us ++ [input], true, .ok input.id⟩

/-! ## Operation traces over the token store -/

/-- Operations that touch the `tokens` table: a refresh, a logout, or a
bare record insertion (the token-store effect of `SignIn`). -/
inductive Op
  | refresh (cfg : AuthCfg) (now : Int) (freshID : String) (createFail : Bool)
      (tokenID : String)
  | logout (tokenID : String)
  | create (fail : Bool) (tok : Token)

/-- Effect of one operation on the token store. -/
def applyOp (st : List Token) : Op → List Token
  | .refresh cfg now freshID createFail tokenID =>
    (RefreshToken cfg now freshID createFail st tokenID).1
  | .logout tokenID => (Logout st tokenID).1
  | .create fail tok => (tokenCreate fail st tok).1

/-- Freshness of an operation with respect to a retired token ID `t`: the
random IDs it may insert are distinct from `t` (`uuid.New` never repeats a
previously issued ID). -/
def opFresh (t : String) : Op → Prop
  | .refresh _ _ freshID _ _ => freshID ≠ t
  | .logout _ => True
  | .create _ tok => tok.tokenID ≠ t

/-- Runs a list of operations over the token store. -/
def runOps (st : List Token) (ops : List Op) : List Token :=
  ops.foldl applyOp st

/-- Convenience: whether an `Except` is a success. -/
def exceptIsOk : Except GoError α → Bool
  | .ok _ => true
  | .error _ => false

/-! ## Concrete material used by witnesses and counterexamples -/

/-- Concrete injective-on-short-inputs key-derivation function used to
instantiate the bcrypt model in witnesses: pads to 31 characters. -/
def kdfW (p _salt : List Char) : List Char :=
  (p ++ List.replicate 31 'x').take 31

/-- Concrete 22-character salt. -/
def saltW : List Char := List.replicate 22 's'

/-- Concrete configuration for witnesses. -/
def cfgW : AuthCfg := ⟨"secret", 3600, 86400⟩

/-- Concrete non-nil UUID for witnesses. -/
def uidW : UUID := ⟨1, 2, 3, 4, 5, 6, 7, 8, 9, 10, 11, 12, 13, 14, 15, 255⟩

/-- Concrete user table for the sign-in counterexample: one user whose
stored hash is the bcrypt encoding of the password `right`. -/
def usersW : List User :=
  [⟨uidW, "alice", "alice@x.com", String.mk (bcryptEncode saltW (kdfW "right".data saltW)),
    ""⟩]

/-- Absence of a token ID from the store: no row carries `t`. -/
def NoTok (t : String) (st : List Token) : Prop := ∀ tok ∈ st, tok.tokenID ≠ t

deriving instance DecidableEq for Except

/-! ## Helper lemmas -/

set_option maxRecDepth 4096 in
/-- Hex-encoding a byte and reading it back is the identity. -/
theorem hex_roundtrip : ∀ b : Fin 256, parseHexByte (hexHi b) (hexLo b) = some b := by
  decide

/-- Rendering a UUID canonically and parsing it back is the identity. -/
theorem uuid_roundtrip (u : UUID) : uuidParse (uuidString u) = some u := by
  obtain ⟨b0, b1, b2, b3, b4, b5, b6, b7, b8, b9, b10, b11, b12, b13, b14, b15⟩ := u
  simp [uuidParse, uuidString, uuidChars, uuidParseChars, hex_roundtrip]

/-- Filtering out a token ID leaves no row carrying it. -/
theorem noTok_filter (t : String) (st : List Token) :
    NoTok t (st.filter (fun x => !(x.tokenID == t))) := by
  intro tok h
  simp only [List.mem_filter, Bool.not_eq_eq_eq_not, Bool.not_true, beq_eq_false_iff_ne,
    ne_eq] at h
  exact h.2

/-- When `tokenGet` succeeds, the `DELETE` affects at least one row. -/
theorem tokenGet_ok_any (st : List Token) (id : String) (r : Token)
    (h : tokenGet st id = .ok r) : st.any (fun x => x.tokenID == id) = true := by
  unfold tokenGet at h
  rcases hf : st.find? (fun t => t.tokenID == id) with _ | r0
  · rw [hf] at h; cases h
  · rw [hf] at h
    cases h
    have h1 : r ∈ st := List.mem_of_find?_eq_some hf
    have h2 := List.find?_some hf
    exact List.any_eq_true.mpr ⟨r, h1, by simpa using h2⟩

/-- When the `DELETE` affects a row, `tokenDelete` succeeds and leaves
exactly the filtered store. -/
theorem tokenDelete_ok (st : List Token) (id : String)
    (hany : st.any (fun x => x.tokenID == id) = true) :
    tokenDelete st id = (st.filter (fun x => !(x.tokenID == id)), .ok ()) := by
  unfold tokenDelete
  rw [hany]
  rfl

/-- A store holding no row for `t` makes `tokenGet` fail with the
not-found wrap. -/
theorem tokenGet_absent (st : List Token) (t : String) (h : NoTok t st) :
    tokenGet st t = .error (makeError .errReceiving (.domainE .errNotFound) "token") := by
  unfold tokenGet
  have hf : st.find? (fun tok => tok.tokenID == t) = none := by
    apply List.find?_eq_none.mpr
    intro x hx
    simpa using h x hx
  rw [hf]

/-- On a store holding no row for `t`, `RefreshToken t` fails with the
not-found wrap and leaves the store unchanged. -/
theorem refresh_absent (cfg : AuthCfg) (now : Int) (fid : String) (cf : Bool)
    (st : List Token) (t : String) (h : NoTok t st) :
    RefreshToken cfg now fid cf st t =
      (st, .error (makeError .errReceiving (.domainE .errNotFound) "token")) := by
  unfold RefreshToken
  rw [tokenGet_absent st t h]

/-- Store shape after a successful refresh: the presented ID is filtered
out and exactly the fresh record is appended. -/
theorem refresh_ok_store (cfg : AuthCfg) (now : Int) (fid : String) (cf : Bool)
    (st st1 : List Token) (t : String) (out : TokenOutput)
    (h : RefreshToken cfg now fid cf st t = (st1, .ok out)) :
    ∃ uid, st1 = st.filter (fun x => !(x.tokenID == t)) ++
      [⟨uid, fid, now + cfg.refreshTokenTTL⟩] := by
  unfold RefreshToken at h
  rcases hg : tokenGet st t with e | r
  · rw [hg] at h; cases h
  · rw [hg] at h
    have hany := tokenGet_ok_any st t r hg
    unfold tokenDelete at h
    rw [hany] at h
    simp only [if_true] at h
    by_cases hexp : r.expiresAt < now
    · rw [if_pos hexp] at h; cases h
    · rw [if_neg hexp] at h
      unfold generateAndSaveTokens tokenCreate at h
      cases cf with
      | true => simp only [if_true] at h; cases h
      | false =>
        simp only [if_false, Bool.false_eq_true] at h
        refine ⟨r.userID, ?_⟩
        cases h
        rfl

/-- The logout store is always the filtered store, whether or not a row
was deleted. -/
theorem logout_store (st : List Token) (t : String) :
    (Logout st t).1 = st.filter (fun x => !(x.tokenID == t)) := by
  unfold Logout tokenDelete
  dsimp only
  split <;> rfl

/-- Every row in the store a refresh leaves behind was already present or
carries the freshly generated ID. -/
theorem mem_refresh_store (cfg : AuthCfg) (now : Int) (fid : String) (cf : Bool)
    (st : List Token) (tid : String) (tok : Token)
    (h : tok ∈ (RefreshToken cfg now fid cf st tid).1) : tok ∈ st ∨ tok.tokenID = fid := by
  unfold RefreshToken at h
  rcases hg : tokenGet st tid with e | r
  · rw [hg] at h; exact .inl h
  · rw [hg] at h
    have hany := tokenGet_ok_any st tid r hg
    unfold tokenDelete at h
    rw [hany] at h
    simp only [if_true] at h
    by_cases hexp : r.expiresAt < now
    · rw [if_pos hexp] at h
      exact .inl (List.mem_of_mem_filter h)
    · rw [if_neg hexp] at h
      unfold generateAndSaveTokens tokenCreate at h
      cases cf with
      | true =>
        simp only [if_true] at h
        exact .inl (List.mem_of_mem_filter h)
      | false =>
        simp only [if_false, Bool.false_eq_true] at h
        rcases List.mem_append.mp h with h1 | h1
        · exact .inl (List.mem_of_mem_filter h1)
        · simp only [List.mem_singleton] at h1
          subst h1
          exact .inr rfl

/-- One fresh operation cannot reintroduce a retired token ID. -/
theorem applyOp_preserves_noTok (t : String) (st : List Token) (op : Op)
    (hfresh : opFresh t op) (h : NoTok t st) : NoTok t (applyOp st op) := by
  cases op with
  | refresh cfg now fid cf tid =>
    intro tok hm
    rcases mem_refresh_store cfg now fid cf st tid tok hm with h1 | h1
    · exact h tok h1
    · rw [h1]; exact hfresh
  | logout tid =>
    intro tok hm
    simp only [applyOp] at hm
    rw [logout_store] at hm
    exact h tok (List.mem_of_mem_filter hm)
  | create fail tok0 =>
    intro tok hm
    unfold applyOp tokenCreate at hm
    cases fail with
    | true => simp only [if_true] at hm; exact h tok hm
    | false =>
      simp only [if_false, Bool.false_eq_true] at hm
      rcases List.mem_append.mp hm with h1 | h1
      · exact h tok h1
      · simp only [List.mem_singleton] at h1
        subst h1
        exact hfresh

/-- A trace of fresh operations cannot reintroduce a retired token ID. -/
theorem runOps_preserves_noTok (t : String) (ops : List Op)
    (hops : ∀ op ∈ ops, opFresh t op) (st : List Token) (h : NoTok t st) :
    NoTok t (runOps st ops) := by
  induction ops generalizing st with
  | nil => exact h
  | cons op rest ih =>
    exact ih (fun o ho => hops o (List.mem_cons_of_mem op ho)) (applyOp st op)
      (applyOp_preserves_noTok t st op (hops op (List.mem_cons_self op rest)) h)

/-! ## Claims -/

/-- C1: refresh tokens are single-use and Consumed is terminal.  After a
successful `RefreshToken t` (whose fresh replacement ID differs from `t`)
or a successful `Logout t` has deleted the record for `t`, every
subsequent `RefreshToken t` call — after any further trace of fresh
operations — fails with the not-found error, issues no tokens, and leaves
the store unchanged. -/
theorem refresh_token_single_use (cfg : AuthCfg) (now : Int) (freshID : String)
    (createFail : Bool) (st st1 : List Token) (t : String)
    (hfresh : freshID ≠ t)
    (hconsumed : (∃ out, RefreshToken cfg now freshID createFail st t = (st1, .ok out)) ∨
      Logout st t = (st1, .ok ()))
    (ops : List Op) (hops : ∀ op ∈ ops, opFresh t op)
    (cfg2 : AuthCfg) (now2 : Int) (fid2 : String) (cf2 : Bool) :
    RefreshToken cfg2 now2 fid2 cf2 (runOps st1 ops) t =
      (runOps st1 ops, .error (makeError .errReceiving (.domainE .errNotFound) "token")) := by
  have hno : NoTok t st1 := by
    rcases hconsumed with ⟨out, hok⟩ | hlo
    · rcases refresh_ok_store cfg now freshID createFail st st1 t out hok with ⟨uid, hst⟩
      subst hst
      intro tok hm
      rcases List.mem_append.mp hm with h1 | h1
      · exact noTok_filter t st tok h1
      · simp only [List.mem_singleton] at h1
        subst h1
        exact hfresh
    · have h1 : st1 = st.filter (fun x => !(x.tokenID == t)) := by
        rw [← logout_store st t, hlo]
      subst h1
      exact noTok_filter t st
  exact refresh_absent cfg2 now2 fid2 cf2 (runOps st1 ops) t
    (runOps_preserves_noTok t ops hops st1 hno)

/-- Witness for C1 at concrete inputs: one live record, a successful
refresh with fresh ID `t2`, an empty subsequent trace, and the retired ID
`t1` then failing. -/
theorem refresh_token_single_use_witness :
    RefreshToken cfgW 60 "t3" false
        (runOps ((RefreshToken cfgW 50 "t2" false [⟨uidW, "t1", 100⟩] "t1").1) []) "t1" =
      (runOps ((RefreshToken cfgW 50 "t2" false [⟨uidW, "t1", 100⟩] "t1").1) [],
        .error (makeError .errReceiving (.domainE .errNotFound) "token")) :=
  refresh_token_single_use cfgW 50 "t2" false [⟨uidW, "t1", 100⟩]
    ((RefreshToken cfgW 50 "t2" false [⟨uidW, "t1", 100⟩] "t1").1) "t1"
    (by decide)
    (.inl ⟨⟨generateAccessToken cfgW 50 uidW, "t2"⟩, by decide⟩)
    [] (by intro op h; cases h) cfgW 60 "t3" false

/-- C2: burn-on-presentation ordering.  When the store holds a record for
`t` that is expired, `RefreshToken t` returns the token-expired error and
the record for `t` has nevertheless been deleted: the result store is
exactly the old store with `t` filtered out, and no row for `t` remains. -/
theorem refresh_expired_burns (cfg : AuthCfg) (now : Int) (fid : String) (cf : Bool)
    (st : List Token) (t : String) (r : Token)
    (hfind : st.find? (fun tok => tok.tokenID == t) = some r)
    (hexp : r.expiresAt < now) :
    RefreshToken cfg now fid cf st t =
      (st.filter (fun tok => !(tok.tokenID == t)), .error (.fmtError "token expired")) ∧
    NoTok t (RefreshToken cfg now fid cf st t).1 := by
  have hg : tokenGet st t = .ok r := by unfold tokenGet; rw [hfind]
  have hany := tokenGet_ok_any st t r hg
  have hmain : RefreshToken cfg now fid cf st t =
      (st.filter (fun tok => !(tok.tokenID == t)), .error (.fmtError "token expired")) := by
    unfold RefreshToken
    rw [hg, tokenDelete_ok st t hany]
    dsimp only
    rw [if_pos hexp]
  refine ⟨hmain, ?_⟩
  rw [hmain]
  exact noTok_filter t st

/-- Witness for C2: a store holding one record for `t1`, expired relative
to the current time 10. -/
theorem refresh_expired_burns_witness :
    RefreshToken cfgW 10 "t2" false [⟨uidW, "t1", 5⟩] "t1" =
      ([⟨uidW, "t1", 5⟩].filter (fun tok => !(tok.tokenID == "t1")),
        .error (.fmtError "token expired")) ∧
    NoTok "t1" (RefreshToken cfgW 10 "t2" false [⟨uidW, "t1", 5⟩] "t1").1 :=
  refresh_expired_burns cfgW 10 "t2" false [⟨uidW, "t1", 5⟩] "t1" ⟨uidW, "t1", 5⟩
    (by decide) (by decide)

/-- C4 counterexample: a record whose expiry exactly equals the current
time is accepted, not rejected — the refresh succeeds, because the code
uses the strict `ExpiresAt.Before(now)`. -/
theorem refresh_expiry_boundary_counterexample :
    (⟨uidW, "t1", (100 : Int)⟩ : Token).expiresAt = 100 ∧
    exceptIsOk (RefreshToken cfgW 100 "t2" false [⟨uidW, "t1", 100⟩] "t1").2 = true := by
  constructor
  · rfl
  · decide

/-- C4 amended: a stored record whose expiry is strictly before the
current time is rejected with the token-expired error, while a record
whose expiry exactly equals the current time passes the expiry check and
(with the replacement persisting) the refresh succeeds. -/
theorem refresh_expiry_strict (cfg : AuthCfg) (now : Int) (fid : String)
    (st : List Token) (t : String) (r : Token)
    (hfind : st.find? (fun tok => tok.tokenID == t) = some r) :
    (r.expiresAt < now →
      (RefreshToken cfg now fid false st t).2 = .error (.fmtError "token expired")) ∧
    (r.expiresAt = now →
      (RefreshToken cfg now fid false st t).2 =
        .ok ⟨generateAccessToken cfg now r.userID, fid⟩) := by
  have hg : tokenGet st t = .ok r := by unfold tokenGet; rw [hfind]
  have hany := tokenGet_ok_any st t r hg
  constructor
  · intro hexp
    unfold RefreshToken
    rw [hg, tokenDelete_ok st t hany]
    dsimp only
    rw [if_pos hexp]
  · intro hexp
    have hlt : ¬ r.expiresAt < now := by omega
    unfold RefreshToken
    rw [hg, tokenDelete_ok st t hany]
    dsimp only
    rw [if_neg hlt]
    unfold generateAndSaveTokens tokenCreate
    dsimp only
    rfl

/-- Witness for the amended C4: the strict-failure half at expiry 5 < 10
and the boundary-acceptance half at expiry 100 = 100. -/
theorem refresh_expiry_strict_witness :
    ((⟨uidW, "t1", (5 : Int)⟩ : Token).expiresAt < 10 →
      (RefreshToken cfgW 10 "t2" false [⟨uidW, "t1", 5⟩] "t1").2 =
        .error (.fmtError "token expired")) ∧
    ((⟨uidW, "t1", (5 : Int)⟩ : Token).expiresAt = 10 →
      (RefreshToken cfgW 10 "t2" false [⟨uidW, "t1", 5⟩] "t1").2 =
        .ok ⟨generateAccessToken cfgW 10 uidW, "t2"⟩) :=
  refresh_expiry_strict cfgW 10 "t2" [⟨uidW, "t1", 5⟩] "t1" ⟨uidW, "t1", 5⟩ (by decide)

/-- C9: partial failure of rotation.  When the record for `t` exists and
is unexpired but persisting the replacement record fails, the call
returns the creation error while the record for `t` has already been
deleted: the result store is the old store minus `t` (no replacement
persisted either), and no row for `t` remains. -/
theorem refresh_create_failure_partial (cfg : AuthCfg) (now : Int) (fid : String)
    (st : List Token) (t : String) (r : Token)
    (hfind : st.find? (fun tok => tok.tokenID == t) = some r)
    (hexp : ¬ r.expiresAt < now) :
    RefreshToken cfg now fid true st t =
      (st.filter (fun tok => !(tok.tokenID == t)),
        .error (makeError .errFailedToCreate (.external "db") "token")) ∧
    NoTok t (RefreshToken cfg now fid true st t).1 := by
  have hg : tokenGet st t = .ok r := by unfold tokenGet; rw [hfind]
  have hany := tokenGet_ok_any st t r hg
  have hmain : RefreshToken cfg now fid true st t =
      (st.filter (fun tok => !(tok.tokenID == t)),
        .error (makeError .errFailedToCreate (.external "db") "token")) := by
    unfold RefreshToken
    rw [hg, tokenDelete_ok st t hany]
    dsimp only
    rw [if_neg hexp]
    unfold generateAndSaveTokens tokenCreate
    dsimp only
    rfl
  refine ⟨hmain, ?_⟩
  rw [hmain]
  exact noTok_filter t st

/-- Witness for C9: one unexpired record, storage fault injected on the
replacement insert. -/
theorem refresh_create_failure_partial_witness :
    RefreshToken cfgW 10 "t2" true [⟨uidW, "t1", 100⟩] "t1" =
      ([⟨uidW, "t1", 100⟩].filter (fun tok => !(tok.tokenID == "t1")),
        .error (makeError .errFailedToCreate (.external "db") "token")) ∧
    NoTok "t1" (RefreshToken cfgW 10 "t2" true [⟨uidW, "t1", 100⟩] "t1").1 :=
  refresh_create_failure_partial cfgW 10 "t2" [⟨uidW, "t1", 100⟩] "t1" ⟨uidW, "t1", 100⟩
    (by decide) (by decide)

/-- C3: access-token round trip.  For every user ID, configuration (same
secret on both sides) and positive TTL, parsing a freshly generated access
token before the TTL has elapsed succeeds and returns the same user ID. -/
theorem access_token_round_trip (cfg : AuthCfg) (id : UUID) (now now2 : Int)
    (httl : 0 < cfg.accessTokenTTL) (hbefore : now2 < now + cfg.accessTokenTTL) :
    ParseToken cfg now2 (generateAccessToken cfg now id) = .ok id := by
  have h1 : ¬ (now + cfg.accessTokenTTL ≤ now2) := by omega
  simp [ParseToken, generateAccessToken, jwtSign, jwtParseVerify, h1, uuid_roundtrip]

/-- Witness for C3 at a concrete configuration, user ID and times. -/
theorem access_token_round_trip_witness :
    0 < cfgW.accessTokenTTL ∧ (10 : Int) < 0 + cfgW.accessTokenTTL ∧
    ParseToken cfgW 10 (generateAccessToken cfgW 0 uidW) = .ok uidW :=
  ⟨by decide, by decide, access_token_round_trip cfgW uidW 0 10 (by decide) (by decide)⟩

/-- C10: nil-subject edge case.  A correctly signed, unexpired token whose
`sub` claim is the nil-UUID string parses successfully and returns the
all-zero UUID: a successful verification does not guarantee a non-nil
user ID. -/
theorem parse_token_nil_subject (cfg : AuthCfg) (now exp iat : Int)
    (hunexpired : now < exp) :
    ParseToken cfg now
        (jwtSign cfg.jwtSecret
          ⟨some (.str "00000000-0000-0000-0000-000000000000"), some exp, some iat⟩) =
      .ok uuidNil ∧
    uuidString uuidNil = "00000000-0000-0000-0000-000000000000" := by
  have h1 : ¬ (exp ≤ now) := by omega
  have h2 : uuidParse "00000000-0000-0000-0000-000000000000" = some uuidNil := by decide
  constructor
  · simp [ParseToken, jwtSign, jwtParseVerify, h1, h2]
  · rfl

/-- Witness for C10 at concrete times. -/
theorem parse_token_nil_subject_witness :
    ParseToken cfgW 50
        (jwtSign cfgW.jwtSecret
          ⟨some (.str "00000000-0000-0000-0000-000000000000"), some 100, some 0⟩) =
      .ok uuidNil ∧
    uuidString uuidNil = "00000000-0000-0000-0000-000000000000" :=
  parse_token_nil_subject cfgW 50 100 0 (by decide)

/-- C5 counterexample: `ParseToken` failures are not one single opaque
error kind.  A correctly signed, unexpired token whose `sub` claim is the
non-UUID string `zzz` fails with the distinct sentinel
`domain.ErrInvalidUUID`, while a token with a missing `sub` claim fails
with the `fmt.Errorf("invalid token")` error, and the two error values
differ. -/
theorem parse_token_errors_counterexample :
    ParseToken cfgW 50 (jwtSign "secret" ⟨some (.str "zzz"), some 100, some 0⟩) =
      .error (.domainE .errInvalidUUID) ∧
    ParseToken cfgW 50 (jwtSign "secret" ⟨none, some 100, some 0⟩) =
      .error (.fmtError "invalid token") ∧
    (GoError.domainE .errInvalidUUID) ≠ (GoError.fmtError "invalid token") := by
  refine ⟨by decide, by decide, by decide⟩

/-- C5 amended: every `ParseToken` failure except the malformed-UUID
subject collapses to the single opaque `invalid token` error (bad
signature, wrong algorithm, expired, missing `sub`, non-string `sub`); the
one distinguishable failure is a verified token whose string `sub` is not
a well-formed UUID, which yields the distinct `domain.ErrInvalidUUID`. -/
theorem parse_token_error_kinds (cfg : AuthCfg) (now : Int) (tok : SignedJWT)
    (e : GoError) (h : ParseToken cfg now tok = .error e) :
    e = .fmtError "invalid token" ∨
      (e = .domainE .errInvalidUUID ∧
        ∃ s, jwtParseVerify now cfg.jwtSecret tok = .ok tok.payload ∧
          tok.payload.sub = some (.str s) ∧ uuidParse s = none) := by
  unfold ParseToken at h
  rcases hv : jwtParseVerify now cfg.jwtSecret tok with e0 | p
  · rw [hv] at h
    dsimp only at h
    exact .inl (Except.error.inj h).symm
  · have hp : p = tok.payload := by
      unfold jwtParseVerify at hv
      split at hv
      · cases hv
      · split at hv
        · cases hv
        · split at hv
          · split at hv
            · cases hv
            · exact (Except.ok.inj hv).symm
          · exact (Except.ok.inj hv).symm
    subst hp
    rw [hv] at h
    dsimp only at h
    rcases hsub : tok.payload.sub with _ | v
    · rw [hsub] at h
      dsimp only at h
      exact .inl (Except.error.inj h).symm
    · rcases v with s | n
      · rw [hsub] at h
        dsimp only at h
        rcases hu : uuidParse s with _ | uid
        · rw [hu] at h
          dsimp only at h
          exact .inr ⟨(Except.error.inj h).symm, s, rfl, rfl, hu⟩
        · rw [hu] at h
          cases h
      · rw [hsub] at h
        dsimp only at h
        exact .inl (Except.error.inj h).symm

/-- Witness for the amended C5 at the `zzz`-subject input. -/
theorem parse_token_error_kinds_witness :
    (GoError.domainE .errInvalidUUID) = .fmtError "invalid token" ∨
      ((GoError.domainE .errInvalidUUID) = .domainE .errInvalidUUID ∧
        ∃ s, jwtParseVerify 50 cfgW.jwtSecret
              (jwtSign "secret" ⟨some (.str "zzz"), some 100, some 0⟩) =
            .ok (jwtSign "secret" ⟨some (.str "zzz"), some 100, some 0⟩).payload ∧
          (jwtSign "secret" ⟨some (.str "zzz"), some 100, some 0⟩).payload.sub =
            some (.str s) ∧ uuidParse s = none) :=
  parse_token_error_kinds cfgW 50 (jwtSign "secret" ⟨some (.str "zzz"), some 100, some 0⟩)
    (.domainE .errInvalidUUID) (by decide)

/-- Decoding an encoded bcrypt hash recovers the salt and derived key. -/
theorem bcryptDecode_encode (salt digest : List Char) (hsalt : salt.length = 22)
    (hdig : 30 ≤ digest.length) :
    bcryptDecode (bcryptEncode salt digest) = some (salt, digest) := by
  have hassoc : bcryptEncode salt digest = bcryptHeader ++ (salt ++ digest) := by
    unfold bcryptEncode
    rw [List.append_assoc]
  have hlen7 : bcryptHeader.length = 7 := rfl
  unfold bcryptDecode
  rw [hassoc]
  have hlen : (bcryptHeader ++ (salt ++ digest)).length = 29 + digest.length := by
    simp [List.length_append, hsalt, hlen7]
    omega
  rw [hlen]
  have hnotlt : ¬ (29 + digest.length < minHashSize) := by unfold minHashSize; omega
  rw [if_neg hnotlt]
  rw [List.take_left' hlen7, List.drop_left' hlen7]
  rw [if_neg (by simp)]
  rw [List.take_left' hsalt, List.drop_left' hsalt]

/-- C7: hasher empty-input failures.  Hashing the empty password fails;
comparing against an empty stored hash fails for every candidate; and a
hash produced from a non-empty password never verifies the empty
password.  The key-derivation primitive is abstract, constrained only by
what real bcrypt guarantees: 31-byte derived keys and distinct outputs for
the two distinct short inputs involved. -/
theorem hasher_empty_input_failures (kdf : List Char → List Char → List Char)
    (salt : List Char) (hsalt : salt.length = 22) (p : String) (hp : p ≠ "")
    (hlen : (kdf p.data salt).length = 31)
    (hdist : kdf [] salt ≠ kdf p.data salt) :
    GenerateHash kdf salt "" = .error (.fmtError "empty password") ∧
    (∀ q : String, ∃ e, ComparePassword kdf "" q = .error e) ∧
    (∀ h, GenerateHash kdf salt p = .ok h → ∃ e, ComparePassword kdf h "" = .error e) := by
  refine ⟨by unfold GenerateHash; rw [if_pos rfl], ?_, ?_⟩
  · intro q
    refine ⟨.external "crypto-bcrypt: hashedSecret too short", ?_⟩
    unfold ComparePassword
    have hnone : bcryptDecode ("" : String).data = none := rfl
    rw [hnone]
  · intro h hok
    unfold GenerateHash at hok
    rw [if_neg hp] at hok
    have hh : h = String.mk (bcryptEncode salt (kdf p.data salt)) := (Except.ok.inj hok).symm
    subst hh
    refine ⟨.external "crypto-bcrypt: hashedPassword is not the hash of the given password", ?_⟩
    unfold ComparePassword
    have hdata : (String.mk (bcryptEncode salt (kdf p.data salt))).data
        = bcryptEncode salt (kdf p.data salt) := rfl
    rw [hdata, bcryptDecode_encode salt (kdf p.data salt) hsalt (by omega)]
    dsimp only
    rw [if_neg hdist]

/-- Witness for C7 with a concrete padding key-derivation function, a
concrete salt, and the password `a`. -/
theorem hasher_empty_input_failures_witness :
    GenerateHash kdfW saltW "" = .error (.fmtError "empty password") ∧
    (∀ q : String, ∃ e, ComparePassword kdfW "" q = .error e) ∧
    (∀ h, GenerateHash kdfW saltW "a" = .ok h → ∃ e, ComparePassword kdfW h "" = .error e) :=
  hasher_empty_input_failures kdfW saltW (by decide) "a" (by decide) (by decide) (by decide)

/-- Validation fails outright whenever the username or email is empty,
whatever the generated ID was. -/
theorem userValidate_err (u : User) (h : u.username = "" ∨ u.email = "") :
    ∃ e, userValidate u = .error e := by
  unfold userValidate
  by_cases h1 : u.id = uuidNil
  · exact ⟨_, by rw [if_pos h1]⟩
  · rw [if_neg h1]
    by_cases h2 : u.username = ""
    · exact ⟨_, by rw [if_pos h2]⟩
    · rw [if_neg h2]
      have h3 : u.email = "" := by tauto
      exact ⟨_, by rw [if_pos h3]⟩

/-- C8: sign-up validation precedes persistence.  Whenever the username,
email or password is empty, `SignUp` returns an error, the repository's
`CreateUser` is never invoked, and the user table is unchanged. -/
theorem signup_validation_precedes_persistence (kdf : List Char → List Char → List Char)
    (salt : List Char) (freshID : UUID) (cf : Bool) (us : List User) (user : UserCreate)
    (h : user.username = "" ∨ user.email = "" ∨ user.password = "") :
    (SignUp kdf salt freshID cf us user).createUserCalled = false ∧
    (SignUp kdf salt freshID cf us user).store = us ∧
    ∃ e, (SignUp kdf salt freshID cf us user).result = .error e := by
  by_cases hp : user.password = ""
  · unfold SignUp GenerateHash
    rw [if_pos hp]
    exact ⟨rfl, rfl, _, rfl⟩
  · have hue : user.username = "" ∨ user.email = "" := by tauto
    rcases userValidate_err
        { id := freshID, username := user.username, email := user.email
          password := String.mk (bcryptEncode salt (kdf user.password.data salt))
          imageURL := user.imageURL } hue with ⟨e, he⟩
    unfold SignUp GenerateHash
    rw [if_neg hp]
    dsimp only
    rw [he]
    exact ⟨rfl, rfl, e, rfl⟩

/-- Witness for C8 at an empty username. -/
theorem signup_validation_precedes_persistence_witness :
    (SignUp kdfW saltW uidW false [] ⟨"", "e@x.com", "pw", ""⟩).createUserCalled = false ∧
    (SignUp kdfW saltW uidW false [] ⟨"", "e@x.com", "pw", ""⟩).store = [] ∧
    ∃ e, (SignUp kdfW saltW uidW false [] ⟨"", "e@x.com", "pw", ""⟩).result = .error e :=
  signup_validation_precedes_persistence kdfW saltW uidW false []
    ⟨"", "e@x.com", "pw", ""⟩ (.inl rfl)

/-- C6 counterexample: sign-in failures are not one single opaque error
kind.  With one stored user, an unknown email yields the
`ErrNotFound`-wrapped lookup error while a wrong password for the
existing user yields the distinct sentinel `ErrIncorrectPassword`. -/
theorem signin_errors_counterexample :
    (SignIn kdfW cfgW 0 "fresh" false usersW [] ⟨"bob@x.com", "pw"⟩).2 =
      .error (makeError .errReceiving (.domainE .errNotFound) "user") ∧
    (SignIn kdfW cfgW 0 "fresh" false usersW [] ⟨"alice@x.com", "wrong"⟩).2 =
      .error (.domainE .errIncorrectPassword) ∧
    makeError .errReceiving (.domainE .errNotFound) "user" ≠
      .domainE .errIncorrectPassword := by
  refine ⟨by decide, by decide, by decide⟩

/-- C6 amended: both authentication failures return errors, but the kinds
are distinguishable: an unknown email produces the lookup error wrapping
`ErrNotFound`, while an incorrect password for an existing user produces
the sentinel `ErrIncorrectPassword`, and `errors.Is` separates the two. -/
theorem signin_error_kinds (kdf : List Char → List Char → List Char) (cfg : AuthCfg)
    (now : Int) (fid : String) (cf : Bool) (us : List User) (st : List Token)
    (d1 d2 : UserSignIn) (u : User) (e0 : GoError)
    (h1 : us.find? (fun x => x.email == d1.email) = none)
    (h2 : us.find? (fun x => x.email == d2.email) = some u)
    (h3 : ComparePassword kdf u.password d2.password = .error e0) :
    SignIn kdf cfg now fid cf us st d1 =
      (st, .error (makeError .errReceiving (.domainE .errNotFound) "user")) ∧
    SignIn kdf cfg now fid cf us st d2 = (st, .error (.domainE .errIncorrectPassword)) ∧
    errorIs (makeError .errReceiving (.domainE .errNotFound) "user") .errNotFound = true ∧
    errorIs (makeError .errReceiving (.domainE .errNotFound) "user")
      .errIncorrectPassword = false ∧
    errorIs (.domainE .errIncorrectPassword) .errIncorrectPassword = true ∧
    errorIs (.domainE .errIncorrectPassword) .errNotFound = false := by
  refine ⟨?_, ?_, by decide, by decide, by decide, by decide⟩
  · unfold SignIn checkUser userCredentials
    rw [h1]
  · unfold SignIn checkUser userCredentials
    rw [h2]
    dsimp only
    rw [h3]

/-- Witness for the amended C6 with the concrete user table. -/
theorem signin_error_kinds_witness :
    SignIn kdfW cfgW 0 "fresh" false usersW [] ⟨"bob@x.com", "pw"⟩ =
      ([], .error (makeError .errReceiving (.domainE .errNotFound) "user")) ∧
    SignIn kdfW cfgW 0 "fresh" false usersW [] ⟨"alice@x.com", "wrong"⟩ =
      ([], .error (.domainE .errIncorrectPassword)) ∧
    errorIs (makeError .errReceiving (.domainE .errNotFound) "user") .errNotFound = true ∧
    errorIs (makeError .errReceiving (.domainE .errNotFound) "user")
      .errIncorrectPassword = false ∧
    errorIs (.domainE .errIncorrectPassword) .errIncorrectPassword = true ∧
    errorIs (.domainE .errIncorrectPassword) .errNotFound = false :=
  signin_error_kinds kdfW cfgW 0 "fresh" false usersW [] ⟨"bob@x.com", "pw"⟩
    ⟨"alice@x.com", "wrong"⟩
    ⟨uidW, "alice", "alice@x.com",
      String.mk (bcryptEncode saltW (kdfW "right".data saltW)), ""⟩
    (.external "crypto-bcrypt: hashedPassword is not the hash of the given password")
    (by decide) (by decide) (by decide)

end NotesApp
